import Mathlib

/-!
Verification development for the bookscraper repository (a crawler for
books.toscrape.com).  The Python sources under scraper/src are shallowly
embedded here: pure logic is translated to Lean functions, the network and
the filesystem are explicit oracles, and machine floats for wall-clock
delays are modelled as rationals.
-/

/-- Characters are compared as in Python; this strips whitespace from both
ends of a string, modelling str.strip(). -/
def stripModel (s : String) : String :=
  ⟨((s.data.dropWhile Char.isWhitespace).reverse.dropWhile Char.isWhitespace).reverse⟩

/-- Removes every trailing slash, modelling str.rstrip with the slash
argument as used in main.py. -/
def rstripSlash (s : String) : String :=
  ⟨(s.data.reverse.dropWhile (fun c => c = '/')).reverse⟩

/-- Boolean prefix test on strings, modelling str.startswith. -/
def strStartsWith (s p : String) : Bool := p.data.isPrefixOf s.data

/-- Boolean infix test on character lists; used to model the Python
substring operator on strings. -/
def isInfixList (needle : List Char) : List Char → Bool
  | [] => needle.isEmpty
  | c :: rest => needle.isPrefixOf (c :: rest) || isInfixList needle rest

/-- Substring test modelling the Python expression sub in s. -/
def strContains (s sub : String) : Bool := isInfixList sub.data s.data

/-- Splits a character list at every occurrence of the given separator
character; used to model str.split and os.path manipulation. -/
def splitOnChar (sep : Char) : List Char → List (List Char)
  | [] => [[]]
  | c :: rest =>
    if c = sep then [] :: splitOnChar sep rest
    else
      match splitOnChar sep rest with
      | [] => [[c]]
      | h :: t => (c :: h) :: t

/-- Splits a character list at whitespace characters, modelling
str.split() with no argument (before empty groups are dropped). -/
def splitWsChars : List Char → List (List Char)
  | [] => [[]]
  | c :: rest =>
    if c.isWhitespace then [] :: splitWsChars rest
    else
      match splitWsChars rest with
      | [] => [[c]]
      | h :: t => (c :: h) :: t

/-- Collapses runs of whitespace to single spaces, modelling the Python
idiom of joining str.split() with a single space. -/
def normSpace (s : String) : String :=
  ⟨((((splitWsChars s.data).filter (fun g => g ≠ [])).intersperse [' ']).flatten)⟩

/-- Joins a list of strings with single spaces, modelling str.join as
applied to a class-attribute list. -/
def joinSpace (parts : List String) : String :=
  ⟨(((parts.map String.data)).intersperse [' ']).flatten⟩

/-- Interprets a list of decimal digit characters as a natural number. -/
def natOfDigits (l : List Char) : Nat :=
  l.foldl (fun n c => n * 10 + (c.toNat - 48)) 0

/-- Tests that every character of the list is a decimal digit. -/
def allDigits (l : List Char) : Bool := l.all Char.isDigit

/-- Conversion of a digit-and-dot string to a rational, modelling the
Python float() constructor on the cleaned price text: at most one dot is
accepted and at least one digit must be present. -/
def parseFloat (s : String) : Option ℚ :=
  match splitOnChar '.' s.data with
  | [a] => if a ≠ [] ∧ allDigits a then some (natOfDigits a) else none
  | [a, b] =>
    if (a ++ b) ≠ [] ∧ allDigits a ∧ allDigits b then
      some ((natOfDigits a : ℚ) + (natOfDigits b : ℚ) / (10 ^ b.length : ℚ))
    else none
  | _ => none

/-- Binary maximum on rationals via the decidable order, modelling the
Python max builtin on floats. -/
def qmax (a b : ℚ) : ℚ := if a ≤ b then b else a

/-- Splits a URL at the first scheme separator, returning the scheme
characters and the remainder; models the scheme/netloc decomposition done
by urllib.parse.urlparse for http(s) URLs. -/
def splitScheme : List Char → Option (List Char × List Char)
  | [] => none
  | ':' :: '/' :: '/' :: rest => some ([], rest)
  | c :: rest =>
    match splitScheme rest with
    | some (sch, tail) => some (c :: sch, tail)
    | none => none

/-- Result of one HTTP request in the fetcher model: either a status code
with a body, or a network-level error (timeout, connection failure). -/
inductive HttpResp where
  | status (code : Nat) (body : String)
  | netError
deriving DecidableEq

/-- Status codes that fetcher.py retries (429 plus the listed 5xx codes). -/
def transient_codes : List Nat := [429, 500, 502, 503, 504]

/-- Maximum number of request attempts, MAX_RETRIES in fetcher.py. -/
def MAX_RETRIES : Nat := 3

/-- Wait computed before the given attempt in fetch_page: the first
attempt waits the jittered base delay floored at a tenth of a second, and
later attempts wait the pure exponential backoff. -/
def wait_time (base jitter : ℚ) (attempt : Nat) : ℚ :=
  if attempt = 1 then qmax (1/10) (base + jitter) else base * 2 ^ (attempt - 1)

/-- Outcome of fetch_page together with the observable request count and
the sequence of sleeps, in order. -/
structure FetchResult where
  content : Option String
  attempts : Nat
  waits : List ℚ
deriving DecidableEq

/-- Retry loop of fetch_page: remaining attempt budget, current attempt
number, and accumulated waits.  Classification follows fetcher.py: 200
succeeds, 403 and 404 abort at once, the transient codes and network
errors continue the loop, every other status aborts. -/
def fetch_page_go (resp : Nat → HttpResp) (base jitter : ℚ) :
    Nat → Nat → List ℚ → FetchResult
  | 0, attempt, waits => ⟨none, attempt - 1, waits⟩
  | n + 1, attempt, waits =>
    let w := wait_time base jitter attempt
    let waits' := waits ++ [w]
    match resp attempt with
    | .status code body =>
      if code = 200 then ⟨some body, attempt, waits'⟩
      else if code ∈ [403, 404] then ⟨none, attempt, waits'⟩
      else if code ∈ transient_codes then
        fetch_page_go resp base jitter n (attempt + 1) waits'
      else ⟨none, attempt, waits'⟩
    | .netError => fetch_page_go resp base jitter n (attempt + 1) waits'

/-- Embedding of fetcher.fetch_page: the per-attempt responses are an
oracle, the single jitter draw of random.uniform is a parameter, and the
millisecond delay is converted to seconds as in the source. -/
def fetch_page (resp : Nat → HttpResp) (delay_ms : ℚ) (jitter : ℚ) : FetchResult :=
  fetch_page_go resp (delay_ms / 1000) jitter MAX_RETRIES 1 []

/-- Scheme and host of a URL, modelling RobotsChecker.get_base_url and
pagination.get_base_url, which reconstruct scheme plus netloc via
urllib.parse.urlparse. -/
def get_base_url (url : String) : String :=
  match splitScheme url.data with
  | some (sch, rest) => ⟨sch⟩ ++ "://" ++ ⟨rest.takeWhile (fun c => c ≠ '/')⟩
  | none => "://"

/-- Path component of a URL under the urlparse model used here: everything
from the first slash after the netloc. -/
def urlPath (url : String) : String :=
  match splitScheme url.data with
  | some (_, rest) => ⟨rest.dropWhile (fun c => c ≠ '/')⟩
  | none => url

/-- Directory part of a slash-separated path, modelling os.path.dirname
as used by pagination.py. -/
def dirnameModel (p : String) : String :=
  let parts := splitOnChar '/' p.data
  if parts.length ≤ 1 then ""
  else
    let d : String := ⟨((parts.dropLast).intersperse ['/']).flatten⟩
    if d = "" then "/" else d

/-- Base string up to and including the final slash; helper for the
relative branch of the urljoin model. -/
def dirOf (s : String) : String :=
  ⟨(s.data.reverse.dropWhile (fun c => c ≠ '/')).reverse⟩

/-- Resolution of a link against a base, modelling urllib.parse.urljoin
for the inputs this crawler produces (no dot segments, no query or
fragment): an absolute link is returned unchanged, a root-relative link is
joined to the scheme and host, and any other link is joined to the base
directory. -/
def urljoin (base rel : String) : String :=
  if rel = "" then base
  else if strStartsWith rel "http://" || strStartsWith rel "https://" then rel
  else if strStartsWith rel "/" then get_base_url base ++ rel
  else dirOf base ++ rel

/-- Embedding of data_structures.BookItem; price is rational in place of
the Python float, and the optional image URL is kept. -/
structure BookItem where
  title : String
  price : ℚ
  availability : String
  rating : Nat
  category : String
  url : String
  image_url : Option String := none
deriving DecidableEq

/-- Embedding of data_structures.ScraperArgs. -/
structure ScraperArgs where
  start : String
  max_pages : Nat
  delay_ms : Nat
  dry_run : Bool
deriving DecidableEq

/-- One product pod as seen through the BeautifulSoup selectors of
parser.py: the optional title anchor with its attributes, and the optional
price, rating-class and availability matches. -/
structure ProductPod where
  titleAttr : Option String
  hrefAttr : Option String
  hasTitleTag : Bool
  priceText : Option String
  ratingClasses : Option (List String)
  availabilityText : Option String
deriving DecidableEq

/-- A fetched page as seen through the selectors the crawler applies to
it: the active breadcrumb text, the product pods, the optional next-page
anchor (outer option: anchor present, inner option: href attribute), and
the href attributes of the sidebar category links. -/
structure Html where
  breadcrumbActive : Option String
  productPods : List ProductPod
  nextHref : Option (Option String)
  sidebarLinks : List (Option String)
deriving DecidableEq

/-- Embedding of parser.RATING_MAP in its iteration order. -/
def RATING_MAP : List (String × Nat) :=
  [("One", 1), ("Two", 2), ("Three", 3), ("Four", 4), ("Five", 5)]

/-- Iteration of parse_rating over the rating map. -/
def parse_rating_go (rating_class : String) : List (String × Nat) → Nat
  | [] => 0
  | (word, r) :: rest =>
    if strContains rating_class word then r else parse_rating_go rating_class rest

/-- Embedding of parser.parse_rating: the first rating word contained in
the joined class string wins, and 0 is returned when none matches. -/
def parse_rating (rating_class : String) : Nat :=
  parse_rating_go rating_class RATING_MAP

/-- Embedding of parser.extract_category_from_page: the stripped text of
the active breadcrumb item, defaulting to the all-products label. -/
def extract_category_from_page (html : Html) : String :=
  match html.breadcrumbActive with
  | some t => stripModel t
  | none => "All products"

/-- Try-block of parser.parse_book_page for one product pod: any missing
or malformed field makes the whole item fail (the except path), mirroring
each raise site of the source in order. -/
def parse_product (category current_url : String) (pod : ProductPod) : Option BookItem :=
  if pod.hasTitleTag = false then none
  else
    match pod.titleAttr with
    | none => none
    | some ttl =>
      if ttl = "" then none
      else
        match pod.hrefAttr with
        | none => none
        | some rel =>
          let full_url := urljoin current_url rel
          match pod.priceText with
          | none => none
          | some ptxt =>
            let cleaned : String := ⟨ptxt.data.filter (fun c => c.isDigit || c = '.')⟩
            if cleaned = "" then none
            else
              match parseFloat cleaned with
              | none => none
              | some price =>
                match pod.ratingClasses with
                | none => none
                | some cls =>
                  if cls = [] then none
                  else
                    let rating := parse_rating (joinSpace cls)
                    match pod.availabilityText with
                    | none => none
                    | some av =>
                      some ⟨stripModel ttl, price, normSpace av, rating, category, full_url, none⟩

/-- Embedding of parser.parse_book_page (the two-argument revision under
src): the page category is read from the breadcrumb and each failing pod
is dropped while the remaining pods are kept, in order. -/
def parse_book_page (html : Html) (current_url : String) : List BookItem :=
  html.productPods.filterMap (parse_product (extract_category_from_page html) current_url)

/-- Modelled from the spec: main.py invokes parse_book_page with a third
category argument, but only the two-argument historical revision of the
extraction code is under src.  Following the spec's Extraction Port (records
are produced from page content and URL, with the page category attached to
each record) and its error taxonomy (a record with a missing or malformed
field is dropped and extraction continues with the remaining records,
never aborting the page), this revision threads the caller-supplied
category through the same per-pod logic. -/
def parse_book_page_with_category (html : Html) (current_url category : String) :
    List BookItem :=
  html.productPods.filterMap (parse_product category current_url)

/-- Embedding of main.extract_all_category_urls: every sidebar link with a
non-empty href is resolved against the base URL, in document order. -/
def extract_all_category_urls (html : Html) (base_url : String) : List String :=
  html.sidebarLinks.filterMap (fun o =>
    match o with
    | some rel => if rel = "" then none else some (urljoin base_url rel)
    | none => none)

/-- Embedding of pagination.get_next_page_url: when the next anchor and
its href are present and non-empty, the link is resolved against the
directory of the current URL rebuilt as in the source. -/
def get_next_page_url (html : Html) (current_url : String) : Option String :=
  match html.nextHref with
  | none => none
  | some none => none
  | some (some rel) =>
    if rel = "" then none
    else
      let base_path := dirnameModel (rstripSlash (urlPath current_url))
      let directory_path := if base_path = "" then "/" else base_path ++ "/"
      let base_for_join := get_base_url current_url ++ directory_path
      some (urljoin base_for_join rel)

/-- Addition to a set of keys modelled as a duplicate-free list, the
effect of Python set.add. -/
def addKey (k : String) (keys : List String) : List String :=
  if k ∈ keys then keys else keys ++ [k]

/-- Embedding of main.save_items_to_jsonl: items are visited in order, an
item whose url key is already known is silently dropped, and a new item is
appended to the store with its key added to the index.  The result is the
updated index, the updated store contents and the newly-saved count. -/
def save_items_go :
    List BookItem → List String × List BookItem × Nat → List String × List BookItem × Nat
  | [], acc => acc
  | item :: rest, acc =>
    save_items_go rest
      (if item.url ∈ acc.1 then acc
       else (acc.1 ++ [item.url], acc.2.1 ++ [item], acc.2.2 + 1))

/-- Entry point of the store append: the loop starts with the caller's key
set and store contents and a zero count of newly saved items. -/
def save_items_to_jsonl (items : List BookItem) (saved_item_keys : List String)
    (store : List BookItem) : List String × List BookItem × Nat :=
  save_items_go items (saved_item_keys, store, 0)

/-- Iteration of the index-seeding loop of main.run_scraper. -/
def seed_go : List BookItem → List String → List String
  | [], ks => ks
  | item :: rest, ks => seed_go rest (addKey item.url ks)

/-- Embedding of the index-seeding loop of main.run_scraper: each line of
the existing store contributes its url key to the starting index. -/
def seed_saved_keys (store : List BookItem) : List String :=
  seed_go store []

/-- Per-domain robots policy, RobotsRuleset in the spec: the disallowed
path prefixes compiled for the crawler identity.  Models the parsed
robotparser document, the external collaborator of robots.py. -/
structure RobotsRuleset where
  disallow : List String
deriving DecidableEq

/-- Rule evaluation against a URL, modelling RobotFileParser.can_fetch for
the single crawler identity used by this program. -/
def can_fetch (rs : RobotsRuleset) (ua url : String) : Bool :=
  let _ := ua
  !(rs.disallow.any (fun p => strStartsWith (urlPath url) p))

/-- Embedding of robots.RobotsChecker: the configured identity string and
the cache mapping each scheme-and-host base to its loaded ruleset. -/
structure RobotsChecker where
  user_agent : String
  parsers : List (String × RobotsRuleset)
deriving DecidableEq

/-- Embedding of RobotsChecker.get_parser (named get_rules here): on a
cache hit the cached ruleset is returned; on a miss the robots document at
the base is read through the oracle, a successful read is cached keyed by
the base, and a failed read returns nothing and leaves the cache
untouched. -/
def get_rules (fetchRobots : String → Option RobotsRuleset) (c : RobotsChecker)
    (url : String) : Option RobotsRuleset × RobotsChecker :=
  let base := get_base_url url
  match c.parsers.lookup base with
  | some rp => (some rp, c)
  | none =>
    match fetchRobots (base ++ "/robots.txt") with
    | some rp => (some rp, ⟨c.user_agent, c.parsers ++ [(base, rp)]⟩)
    | none => (none, c)

/-- Embedding of RobotsChecker.is_url_allowed: when no ruleset could be
loaded the crawl is allowed (fail-open), otherwise the cached ruleset is
evaluated against the identity string and the full URL. -/
def is_url_allowed (fetchRobots : String → Option RobotsRuleset) (c : RobotsChecker)
    (url : String) : Bool × RobotsChecker :=
  let r := get_rules fetchRobots c url
  match r.1 with
  | none => (true, r.2)
  | some rp => (can_fetch rp c.user_agent url, r.2)

/-- Observable events of one crawl run, in the order main.run_scraper
produces them. -/
inductive CrawlEvent where
  | fetched (url : String)
  | robotsChecked (url : String) (allowed : Bool)
  | skippedVisited (url : String)
  | fetchFailed (url : String)
  | processed (url : String)
deriving DecidableEq

/-- External world of one run: the page fetch oracle (the outcome of
fetcher.fetch_page per URL), the robots verdict oracle (the outcome of
RobotsChecker.is_url_allowed per URL), and the pre-existing store contents
(the items file, absent when no previous run persisted anything). -/
structure World where
  fetch : String → Option Html
  robotsAllowed : String → Bool
  existingOutput : Option (List BookItem)

/-- Mutable state of main.run_scraper: the visited set, the FIFO frontier,
the dedup index, the persisted store contents, the page counter and the
event log. -/
structure CrawlState where
  crawledUrls : List String
  urlQueue : List String
  savedItemKeys : List String
  outputLines : List BookItem
  pagesCrawled : Nat
  events : List CrawlEvent
deriving DecidableEq

/-- Literal homepage forms accepted by the category-first test of
main.run_scraper after trailing slashes are stripped. -/
def HOMEPAGE_BASES : List String :=
  ["http://books.toscrape.com", "https://books.toscrape.com"]

/-- Literal URL forms main.run_scraper marks visited to keep the homepage
from being scraped or paginated. -/
def ROOT_FORMS : List String :=
  ["http://books.toscrape.com", "http://books.toscrape.com/",
   "https://books.toscrape.com/", "https://books.toscrape.com"]

/-- Initialization phase of main.run_scraper: the category-first branch
fetches the homepage once (with no robots consultation), replaces the
frontier with the discovered category URLs and marks the root forms
visited; any other start URL seeds the frontier with itself.  The dedup
index is then seeded from the existing store. -/
def initState (w : World) (args : ScraperArgs) : CrawlState :=
  let store := w.existingOutput.getD []
  let keys := match w.existingOutput with
    | some lines => seed_saved_keys lines
    | none => []
  if rstripSlash args.start ∈ HOMEPAGE_BASES then
    let (queue, ev) :=
      match w.fetch args.start with
      | some html => (extract_all_category_urls html args.start,
          [CrawlEvent.fetched args.start])
      | none => ([], [CrawlEvent.fetched args.start])
    ⟨ROOT_FORMS, queue, keys, store, 0, ev⟩
  else
    ⟨[], [args.start], keys, store, 0, []⟩

/-- One iteration of the main loop of run_scraper: nothing happens when the
frontier is empty or the budget is spent; otherwise the head URL is either
skipped (already visited, or denied by robots with no visited marking),
dropped after a failed fetch (marked visited), or processed: its records
are extracted and persisted unless dry-run, its next-page link is appended
to the back of the frontier unconditionally, it is marked visited and the
page counter grows. -/
def scraperStep (w : World) (args : ScraperArgs) (st : CrawlState) :
    Option CrawlState :=
  match st.urlQueue with
  | [] => none
  | u :: rest =>
    if args.max_pages ≤ st.pagesCrawled then none
    else if u ∈ st.crawledUrls then
      some { st with
             urlQueue := rest,
             events := st.events ++ [CrawlEvent.skippedVisited u] }
    else if w.robotsAllowed u = false then
      some { st with
             urlQueue := rest,
             events := st.events ++ [CrawlEvent.robotsChecked u false] }
    else
      match w.fetch u with
      | none =>
        some { st with
               urlQueue := rest,
               crawledUrls := addKey u st.crawledUrls,
               events := st.events ++
                 [CrawlEvent.robotsChecked u true, CrawlEvent.fetched u,
                  CrawlEvent.fetchFailed u] }
      | some html =>
        let category := extract_category_from_page html
        let book_items := parse_book_page_with_category html u category
        let saved :=
          if args.dry_run = false ∧ book_items ≠ [] then
            save_items_to_jsonl book_items st.savedItemKeys st.outputLines
          else (st.savedItemKeys, st.outputLines, 0)
        let queue' :=
          match get_next_page_url html u with
          | some nxt => rest ++ [nxt]
          | none => rest
        some { crawledUrls := addKey u st.crawledUrls,
               urlQueue := queue',
               savedItemKeys := saved.1,
               outputLines := saved.2.1,
               pagesCrawled := st.pagesCrawled + 1,
               events := st.events ++
                 [CrawlEvent.robotsChecked u true, CrawlEvent.fetched u,
                  CrawlEvent.processed u] }

/-- Fuel-indexed iteration of scraperStep; the fuel only cuts off what the
while condition of run_scraper would anyway, so any fuel at least the
number of loop iterations yields the run's final state. -/
def crawlLoop (w : World) (args : ScraperArgs) : Nat → CrawlState → CrawlState
  | 0, st => st
  | n + 1, st =>
    match scraperStep w args st with
    | none => st
    | some st' => crawlLoop w args n st'

/-- Complete embedding of main.run_scraper: initialization followed by the
main loop. -/
def run_scraper (w : World) (args : ScraperArgs) (fuel : Nat) : CrawlState :=
  crawlLoop w args fuel (initState w args)

/-- Termination reasons reported by run_scraper. -/
inductive StopReason where
  | pageBudgetReached
  | exhaustedFrontier
deriving DecidableEq

/-- Final report of run_scraper: the page-budget reason when the counter
reached the budget, else the exhausted-frontier reason when the frontier
is empty, mirroring the order of the closing conditionals. -/
def reportReason (args : ScraperArgs) (st : CrawlState) : Option StopReason :=
  if args.max_pages ≤ st.pagesCrawled then some StopReason.pageBudgetReached
  else if st.urlQueue = [] then some StopReason.exhaustedFrontier
  else none

/-- Urls of the fetch events of a log, in order. -/
def fetchedUrls (events : List CrawlEvent) : List String :=
  events.filterMap (fun e =>
    match e with
    | CrawlEvent.fetched u => some u
    | _ => none)

/-- Number of fetch events for one URL in a log. -/
def countFetched (u : String) (events : List CrawlEvent) : Nat :=
  events.countP (fun e => decide (e = CrawlEvent.fetched u))

/-- Number of processed events for one URL in a log. -/
def countProcessed (u : String) (events : List CrawlEvent) : Nat :=
  events.countP (fun e => decide (e = CrawlEvent.processed u))

/-- Number of robots checks for one URL in a log, either verdict. -/
def countRobotsChecked (u : String) (events : List CrawlEvent) : Nat :=
  events.countP (fun e =>
    decide (e = CrawlEvent.robotsChecked u true) ||
    decide (e = CrawlEvent.robotsChecked u false))

/-- Sequence of persistence calls across one or several runs: each batch
of extracted records is offered to the store through
save_items_to_jsonl, threading the index and the store contents. -/
def persistRuns (batches : List (List BookItem)) (keys : List String)
    (store : List BookItem) : List String × List BookItem :=
  batches.foldl
    (fun acc items =>
      let r := save_items_to_jsonl items acc.1 acc.2
      (r.1, r.2.1))
    (keys, store)

/-- Page with no products, no next link and no sidebar, used by the
concrete run scenarios. -/
def pageNoNext : Html := ⟨none, [], none, []⟩

/-- Page whose only feature is a next link to the fixed URL D, used by
the robots re-discovery scenario. -/
def pageToD : Html := ⟨none, [], some (some "http://t/d"), []⟩

/-- Homepage whose sidebar lists the category URLs A and D, used by the
robots re-discovery scenario. -/
def homepageAD : Html := ⟨none, [], none, [some "http://t/a", some "http://t/d"]⟩

/-- World of the robots-denial scenario: the homepage and page A resolve,
every other fetch fails, and the robots policy denies exactly D. -/
def worldDenyD : World :=
  ⟨fun u =>
    if u = "http://books.toscrape.com/" then some homepageAD
    else if u = "http://t/a" then some pageToD
    else none,
   fun u => !(u == "http://t/d"), none⟩

/-- Arguments of the robots-denial scenario: category-first start, ample
budget, dry run. -/
def argsDenyD : ScraperArgs := ⟨"http://books.toscrape.com/", 10, 1000, true⟩

/-- World of the page-budget scenario: every fetch yields a page with no
next link and robots allows everything. -/
def worldBudget : World := ⟨fun _ => some pageNoNext, fun _ => true, none⟩

/-- Frontier of the page-budget scenario. -/
def frontierABC : CrawlState :=
  ⟨[], ["http://t/a", "http://t/b", "http://t/c"], [], [], 0, []⟩

/-- Arguments of the page-budget scenario, budget two. -/
def argsBudget2 : ScraperArgs := ⟨"http://t/a", 2, 1000, false⟩

/-- Arguments of the frontier-exhaustion scenario, ample budget. -/
def argsBudget10 : ScraperArgs := ⟨"http://t/a", 10, 1000, false⟩

/-- Page whose next link is the already-visited URL V, used by the
pagination-enqueue scenario. -/
def pageToV : Html := ⟨none, [], some (some "http://t/v"), []⟩

/-- World of the pagination-enqueue scenario. -/
def worldToV : World :=
  ⟨fun u => if u = "http://t/a" then some pageToV else none, fun _ => true, none⟩

/-- State of the pagination-enqueue scenario: V is already visited and A
is at the head of the frontier. -/
def stateVisitedV : CrawlState := ⟨["http://t/v"], ["http://t/a"], [], [], 0, []⟩

/-- Responses forcing 429 on the first two attempts and 200 on the third. -/
def resp429 : Nat → HttpResp :=
  fun n => if n ≤ 2 then HttpResp.status 429 "" else HttpResp.status 200 "ok"

/-- Responses forcing 501 on the first attempt and 200 afterwards. -/
def resp501 : Nat → HttpResp :=
  fun n => if n = 1 then HttpResp.status 501 "x" else HttpResp.status 200 "ok"

/-- Robots oracle that always fails to provide a document. -/
def robotsFetchFail : String → Option RobotsRuleset := fun _ => none

/-- Checker freshly initialized with the crawler identity and an empty
cache. -/
def checkerEmpty : RobotsChecker := ⟨"BlueberryAI-Intern-Scraper", []⟩

/-- A product pod with no title anchor attributes; its parse fails and it
is dropped by the extraction loop. -/
def badPod : ProductPod := ⟨none, none, true, none, none, none⟩
/-- A well-formed product pod used next to the malformed one. -/
def goodPod : ProductPod :=
  ⟨some "A Light in the Attic", some "http://t/item", true, some "In stock 51",
   some ["star-rating", "Three"], some "In stock"⟩
/-- Frontier state holding a single URL whose fetch will fail. -/
def stateFetchFail : CrawlState := ⟨[], ["http://t/x"], [], [], 0, []⟩
/-- Two records with distinct canonical URLs, a concrete store. -/
def storeTwo : List BookItem :=
  [⟨"Book A", 5, "In stock", 3, "Travel", "http://t/a", none⟩,
   ⟨"Book B", 7, "In stock", 1, "Travel", "http://t/b", none⟩]
/-- Homepage with exactly three sidebar category links, for the
category-first scenario. -/
def homepage3 : Html :=
  ⟨none, [], none, [some "http://t/c1", some "http://t/c2", some "http://t/c3"]⟩
/-- World of the category-first scenario. -/
def worldRoot : World :=
  ⟨fun u => if u = "http://books.toscrape.com/" then some homepage3 else none,
   fun _ => true, none⟩
/-- Arguments of the category-first scenario. -/
def argsRoot : ScraperArgs := ⟨"http://books.toscrape.com/", 5, 1000, false⟩
/-- State whose frontier head is the already-visited URL V. -/
def stateSkipV : CrawlState :=
  ⟨["http://t/v"], ["http://t/v"], [], [], 0, []⟩
/-- Responses forcing 404 on every attempt. -/
def resp404 : Nat → HttpResp := fun _ => HttpResp.status 404 "x"

/-- Every run of the retry loop performs between one wait-and-request per
attempt actually made: the waits are exactly the scheduled waits of the
attempts made, and the attempt counter equals the last attempt reached. -/
theorem fetch_page_go_shape (resp : Nat → HttpResp) (base jitter : ℚ) :
    ∀ n attempt waits,
      ∃ k, k ≤ n ∧ (1 ≤ n → 1 ≤ k) ∧
        (fetch_page_go resp base jitter n attempt waits).waits =
          waits ++ (List.range' attempt k).map (wait_time base jitter) ∧
        (fetch_page_go resp base jitter n attempt waits).attempts = attempt + k - 1 := by
  intro n
  induction n with
  | zero =>
    intro attempt waits
    exact ⟨0, le_refl 0, fun h => absurd h (by omega), by simp [fetch_page_go], by
      simp [fetch_page_go]⟩
  | succ m ih =>
    intro attempt waits
    cases hr : resp attempt with
    | status code body =>
      by_cases h200 : code = 200
      · refine ⟨1, by omega, fun _ => le_refl 1, ?_, ?_⟩
        · simp [fetch_page_go, hr, h200, List.range']
        · simp [fetch_page_go, hr, h200]
      · by_cases hperm : code ∈ [403, 404]
        · refine ⟨1, by omega, fun _ => le_refl 1, ?_, ?_⟩
          · simp [fetch_page_go, hr, h200, hperm, List.range']
          · simp [fetch_page_go, hr, h200, hperm]
        · by_cases htrans : code ∈ transient_codes
          · obtain ⟨k, hk, _, hwaits, hatt⟩ :=
              ih (attempt + 1) (waits ++ [wait_time base jitter attempt])
            refine ⟨k + 1, by omega, fun _ => by omega, ?_, ?_⟩
            · simp only [fetch_page_go, hr, h200, hperm, htrans, if_false, if_true,
                if_neg h200, if_neg hperm, if_pos htrans]
              rw [hwaits]
              simp [List.range']
            · simp only [fetch_page_go, hr, if_neg h200, if_neg hperm, if_pos htrans]
              rw [hatt]
              omega
          · refine ⟨1, by omega, fun _ => le_refl 1, ?_, ?_⟩
            · simp [fetch_page_go, hr, h200, hperm, htrans, List.range']
            · simp [fetch_page_go, hr, h200, hperm, htrans]
    | netError =>
      obtain ⟨k, hk, _, hwaits, hatt⟩ :=
        ih (attempt + 1) (waits ++ [wait_time base jitter attempt])
      refine ⟨k + 1, by omega, fun _ => by omega, ?_, ?_⟩
      · simp only [fetch_page_go, hr]
        rw [hwaits]
        simp [List.range']
      · simp only [fetch_page_go, hr]
        rw [hatt]
        omega

/-- Shape of a complete fetch_page call: some number of attempts between
one and three was made, the waits are exactly the scheduled waits of those
attempts, and the attempt counter equals that number. -/
theorem fetch_page_shape (resp : Nat → HttpResp) (delay_ms jitter : ℚ) :
    ∃ k, 1 ≤ k ∧ k ≤ 3 ∧
      (fetch_page resp delay_ms jitter).waits =
        (List.range' 1 k).map (wait_time (delay_ms / 1000) jitter) ∧
      (fetch_page resp delay_ms jitter).attempts = k := by
  obtain ⟨k, hk3, hk1, hwaits, hatt⟩ :=
    fetch_page_go_shape resp (delay_ms / 1000) jitter MAX_RETRIES 1 []
  refine ⟨k, hk1 (by simp [MAX_RETRIES]), by simpa [MAX_RETRIES] using hk3, ?_, ?_⟩
  · simpa [fetch_page] using hwaits
  · rw [fetch_page, hatt]
    omega

/-- Membership after a set-style key addition. -/
theorem mem_addKey (k j : String) (l : List String) :
    k ∈ addKey j l ↔ k ∈ l ∨ k = j := by
  by_cases h : j ∈ l
  · simp only [addKey, if_pos h]
    constructor
    · exact fun hk => Or.inl hk
    · rintro (hk | rfl)
      · exact hk
      · exact h
  · simp [addKey, if_neg h]

/-- Membership in the seeded key set: exactly the url keys of the scanned
store lines, together with whatever was already in the accumulator. -/
theorem mem_seed_go (store : List BookItem) :
    ∀ acc k, k ∈ seed_go store acc ↔ k ∈ acc ∨ k ∈ store.map BookItem.url := by
  induction store with
  | nil => intro acc k; simp [seed_go]
  | cons it rest ih =>
    intro acc k
    rw [seed_go, ih, mem_addKey]
    simp only [List.map_cons, List.mem_cons]
    tauto

/-- Length of the seeded key set over an accumulator disjoint from the
remaining distinct keys. -/
theorem seed_go_length (store : List BookItem) :
    ∀ acc, (store.map BookItem.url).Nodup →
      (∀ it ∈ store, it.url ∉ acc) →
      (seed_go store acc).length = acc.length + store.length := by
  induction store with
  | nil => intro acc _ _; simp [seed_go]
  | cons it rest ih =>
    intro acc hnd hdisj
    have hnotin : it.url ∉ acc := hdisj it (List.mem_cons_self it rest)
    have hnd' : (rest.map BookItem.url).Nodup := by
      simpa using (List.nodup_cons.mp (by simpa using hnd)).2
    have hhead : it.url ∉ rest.map BookItem.url :=
      (List.nodup_cons.mp (by simpa using hnd)).1
    rw [seed_go, ih _ hnd']
    · have : (addKey it.url acc).length = acc.length + 1 := by
        simp [addKey, if_neg hnotin]
      rw [this]
      simp [List.length_cons]
      omega
    · intro jt hjt
      rw [mem_addKey]
      rintro (hmem | hurl)
      · exact hdisj jt (List.mem_cons_of_mem it hjt) hmem
      · exact hhead (hurl ▸ List.mem_map_of_mem BookItem.url hjt)

/-- Size of the index seeded from a store of distinct keys. -/
theorem seed_saved_keys_length (store : List BookItem)
    (h : (store.map BookItem.url).Nodup) :
    (seed_saved_keys store).length = store.length := by
  simpa using seed_go_length store [] h (by simp)

/-- A store line's key is in the seeded index. -/
theorem mem_seed_saved_keys (store : List BookItem) (it : BookItem)
    (h : it ∈ store) : it.url ∈ seed_saved_keys store := by
  rw [seed_saved_keys, mem_seed_go]
  exact Or.inr (List.mem_map_of_mem BookItem.url h)

/-- Persisting items whose keys are all already indexed changes nothing
and appends zero lines. -/
theorem save_items_go_nop (items : List BookItem) :
    ∀ acc : List String × List BookItem × Nat,
      (∀ it ∈ items, it.url ∈ acc.1) → save_items_go items acc = acc := by
  induction items with
  | nil => intro acc _; rfl
  | cons it rest ih =>
    intro acc hall
    rw [save_items_go, if_pos (hall it (List.mem_cons_self it rest))]
    exact ih acc (fun jt hjt => hall jt (List.mem_cons_of_mem it hjt))

/-- Invariant of the persistence loop: when the store's keys are distinct
and all indexed, they stay so, and every persisted line's key stays
indexed. -/
theorem save_items_go_invariant (items : List BookItem) :
    ∀ keys store n, (store.map BookItem.url).Nodup →
      (∀ it ∈ store, it.url ∈ keys) →
      ((save_items_go items (keys, store, n)).2.1.map BookItem.url).Nodup ∧
      (∀ it ∈ (save_items_go items (keys, store, n)).2.1,
        it.url ∈ (save_items_go items (keys, store, n)).1) := by
  induction items with
  | nil => intro keys store n hnd hsub; exact ⟨hnd, hsub⟩
  | cons it rest ih =>
    intro keys store n hnd hsub
    by_cases hmem : it.url ∈ keys
    · rw [save_items_go, if_pos hmem]
      exact ih keys store n hnd hsub
    · rw [save_items_go, if_neg hmem]
      refine ih (keys ++ [it.url]) (store ++ [it]) (n + 1) ?_ ?_
      · rw [List.map_append, List.nodup_append]
        refine ⟨hnd, by simp, ?_⟩
        intro u hu
        simp only [List.map_cons, List.map_nil, List.mem_singleton]
        intro hu'
        subst hu'
        obtain ⟨jt, hjt, hjturl⟩ := List.mem_map.mp hu
        exact hmem (hjturl ▸ hsub jt hjt)
      · intro jt hjt
        rcases List.mem_append.mp hjt with hl | hr
        · exact List.mem_append_left _ (hsub jt hl)
        · simp only [List.mem_singleton] at hr
          subst hr
          exact List.mem_append_right _ (by simp)

/-- Across any sequence of persistence calls from a consistent starting
point, the persisted store never holds two records with the same key. -/
theorem persistRuns_nodup (batches : List (List BookItem)) :
    ∀ keys store, (store.map BookItem.url).Nodup →
      (∀ it ∈ store, it.url ∈ keys) →
      (((persistRuns batches keys store).2.map BookItem.url).Nodup ∧
       (∀ it ∈ (persistRuns batches keys store).2,
         it.url ∈ (persistRuns batches keys store).1)) := by
  induction batches with
  | nil => intro keys store hnd hsub; exact ⟨hnd, hsub⟩
  | cons items rest ih =>
    intro keys store hnd hsub
    obtain ⟨hnd', hsub'⟩ := save_items_go_invariant items keys store 0 hnd hsub
    have hfold : persistRuns (items :: rest) keys store =
        persistRuns rest (save_items_to_jsonl items keys store).1
          (save_items_to_jsonl items keys store).2.1 := by
      rfl
    rw [hfold]
    exact ih _ _ hnd' hsub'

/-- Unfolding of one loop iteration when the step succeeds. -/
theorem crawlLoop_succ_of_step (w : World) (args : ScraperArgs) (n : Nat)
    (st st' : CrawlState) (h : scraperStep w args st = some st') :
    crawlLoop w args (n + 1) st = crawlLoop w args n st' := by
  simp [crawlLoop, h]

/-- Step equation on an already-visited head: the URL is dropped with a
skip event and nothing else changes. -/
theorem scraperStep_visited (w : World) (args : ScraperArgs) (st : CrawlState)
    (u : String) (rest : List String) (hq : st.urlQueue = u :: rest)
    (hbudget : st.pagesCrawled < args.max_pages) (hu : u ∈ st.crawledUrls) :
    scraperStep w args st = some { st with
      urlQueue := rest,
      events := st.events ++ [CrawlEvent.skippedVisited u] } := by
  simp [scraperStep, hq, hu, Nat.not_le.mpr hbudget]

/-- Step equation on a robots-denied head: the URL is dropped with a
denial event; in particular it is not marked visited. -/
theorem scraperStep_denied (w : World) (args : ScraperArgs) (st : CrawlState)
    (u : String) (rest : List String) (hq : st.urlQueue = u :: rest)
    (hbudget : st.pagesCrawled < args.max_pages) (hu : u ∉ st.crawledUrls)
    (hrob : w.robotsAllowed u = false) :
    scraperStep w args st = some { st with
      urlQueue := rest,
      events := st.events ++ [CrawlEvent.robotsChecked u false] } := by
  simp [scraperStep, hq, hu, hrob, Nat.not_le.mpr hbudget]

/-- Step equation on an allowed head whose fetch fails: the URL is marked
visited and the loop moves on. -/
theorem scraperStep_fetchFail (w : World) (args : ScraperArgs) (st : CrawlState)
    (u : String) (rest : List String) (hq : st.urlQueue = u :: rest)
    (hbudget : st.pagesCrawled < args.max_pages) (hu : u ∉ st.crawledUrls)
    (hrob : w.robotsAllowed u = true) (hf : w.fetch u = none) :
    scraperStep w args st = some { st with
      urlQueue := rest,
      crawledUrls := addKey u st.crawledUrls,
      events := st.events ++
        [CrawlEvent.robotsChecked u true, CrawlEvent.fetched u,
         CrawlEvent.fetchFailed u] } := by
  simp [scraperStep, hq, hu, hrob, hf, Nat.not_le.mpr hbudget]

/-- Step equation on an allowed head whose fetch succeeds, spelling out
the persisted and enqueued results. -/
theorem scraperStep_success (w : World) (args : ScraperArgs) (st : CrawlState)
    (u : String) (rest : List String) (html : Html) (hq : st.urlQueue = u :: rest)
    (hbudget : st.pagesCrawled < args.max_pages) (hu : u ∉ st.crawledUrls)
    (hrob : w.robotsAllowed u = true) (hf : w.fetch u = some html) :
    scraperStep w args st = some
      { crawledUrls := addKey u st.crawledUrls,
        urlQueue :=
          match get_next_page_url html u with
          | some nxt => rest ++ [nxt]
          | none => rest,
        savedItemKeys :=
          (if args.dry_run = false ∧
              parse_book_page_with_category html u (extract_category_from_page html) ≠ [] then
            save_items_to_jsonl
              (parse_book_page_with_category html u (extract_category_from_page html))
              st.savedItemKeys st.outputLines
          else (st.savedItemKeys, st.outputLines, 0)).1,
        outputLines :=
          (if args.dry_run = false ∧
              parse_book_page_with_category html u (extract_category_from_page html) ≠ [] then
            save_items_to_jsonl
              (parse_book_page_with_category html u (extract_category_from_page html))
              st.savedItemKeys st.outputLines
          else (st.savedItemKeys, st.outputLines, 0)).2.1,
        pagesCrawled := st.pagesCrawled + 1,
        events := st.events ++
          [CrawlEvent.robotsChecked u true, CrawlEvent.fetched u,
           CrawlEvent.processed u] } := by
  simp [scraperStep, hq, hu, hrob, hf, Nat.not_le.mpr hbudget]

/-- Structural analysis of a successful step: the visited set only grows,
the event log only grows, every new fetch or process event belongs to an
unvisited robots-allowed URL, and every new robots check concerns the
frontier head. -/
theorem scraperStep_analysis (w : World) (args : ScraperArgs) (st st' : CrawlState)
    (h : scraperStep w args st = some st') :
    (∀ u, u ∈ st.crawledUrls → u ∈ st'.crawledUrls) ∧
    ∃ evs, st'.events = st.events ++ evs ∧
      (∀ u, CrawlEvent.fetched u ∈ evs →
        u ∉ st.crawledUrls ∧ w.robotsAllowed u = true) ∧
      (∀ u, CrawlEvent.processed u ∈ evs → u ∉ st.crawledUrls) ∧
      (∀ u b, CrawlEvent.robotsChecked u b ∈ evs → st.urlQueue.head? = some u) := by
  rcases hq : st.urlQueue with _ | ⟨u, rest⟩
  · rw [scraperStep, hq] at h
    exact absurd h (by simp)
  · by_cases hbudget : args.max_pages ≤ st.pagesCrawled
    · rw [scraperStep, hq] at h
      simp only [if_pos hbudget] at h
      exact absurd h (by simp)
    · by_cases hu : u ∈ st.crawledUrls
      · rw [scraperStep_visited w args st u rest hq (by omega) hu] at h
        obtain rfl := Option.some_injective _ h
        refine ⟨fun v hv => hv, [CrawlEvent.skippedVisited u], rfl, by simp, by simp, by simp⟩
      · by_cases hrob : w.robotsAllowed u = true
        · rcases hf : w.fetch u with _ | html
          · rw [scraperStep_fetchFail w args st u rest hq (by omega) hu hrob hf] at h
            obtain rfl := Option.some_injective _ h
            refine ⟨fun v hv => (mem_addKey v u st.crawledUrls).mpr (Or.inl hv),
              [CrawlEvent.robotsChecked u true, CrawlEvent.fetched u,
               CrawlEvent.fetchFailed u], rfl, ?_, by simp, ?_⟩
            · intro v hv
              obtain rfl : v = u := by simpa using hv
              exact ⟨hu, hrob⟩
            · intro v b hv
              have hvu : v = u := by
                rcases (by simpa using hv : (v = u ∧ b = true) ∨ False) with ⟨rfl, -⟩ | hfalse
                · rfl
                · exact absurd hfalse (by simp)
              rw [hvu]
              rfl
          · rw [scraperStep_success w args st u rest html hq (by omega) hu hrob hf] at h
            obtain rfl := Option.some_injective _ h
            refine ⟨fun v hv => (mem_addKey v u st.crawledUrls).mpr (Or.inl hv),
              [CrawlEvent.robotsChecked u true, CrawlEvent.fetched u,
               CrawlEvent.processed u], rfl, ?_, ?_, ?_⟩
            · intro v hv
              obtain rfl : v = u := by simpa using hv
              exact ⟨hu, hrob⟩
            · intro v hv
              obtain rfl : v = u := by simpa using hv
              exact hu
            · intro v b hv
              have hvu : v = u := by
                rcases (by simpa using hv : (v = u ∧ b = true) ∨ False) with ⟨rfl, -⟩ | hfalse
                · rfl
                · exact absurd hfalse (by simp)
              rw [hvu]
              rfl
        · have hrob' : w.robotsAllowed u = false := by
            revert hrob
            cases w.robotsAllowed u <;> simp
          rw [scraperStep_denied w args st u rest hq (by omega) hu hrob'] at h
          obtain rfl := Option.some_injective _ h
          refine ⟨fun v hv => hv, [CrawlEvent.robotsChecked u false], rfl, by simp, by simp, ?_⟩
          intro v b hv
          obtain ⟨rfl, -⟩ : v = u ∧ b = false := by simpa using hv
          rfl

/-- A URL already marked visited is never fetched nor processed again by
the rest of the run: its fetch and process counts are frozen. -/
theorem crawlLoop_counts_of_crawled (w : World) (args : ScraperArgs) :
    ∀ (fuel : Nat) (st : CrawlState) (u : String), u ∈ st.crawledUrls →
      countFetched u (crawlLoop w args fuel st).events = countFetched u st.events ∧
      countProcessed u (crawlLoop w args fuel st).events = countProcessed u st.events := by
  intro fuel
  induction fuel with
  | zero => intro st u _; exact ⟨rfl, rfl⟩
  | succ m ih =>
    intro st u hu
    rcases hstep : scraperStep w args st with _ | st'
    · simp [crawlLoop, hstep]
    · obtain ⟨hmono, evs, hevs, hfetch, hproc, _⟩ :=
        scraperStep_analysis w args st st' hstep
      rw [crawlLoop_succ_of_step w args m st st' hstep]
      obtain ⟨hf, hp⟩ := ih st' u (hmono u hu)
      constructor
      · rw [hf, hevs, countFetched, List.countP_append]
        have : (evs.countP (fun e => decide (e = CrawlEvent.fetched u))) = 0 := by
          rw [List.countP_eq_zero]
          intro e he hdec
          have he' : e = CrawlEvent.fetched u := of_decide_eq_true hdec
          exact (hfetch u (he' ▸ he)).1 hu
        rw [this, countFetched]
        omega
      · rw [hp, hevs, countProcessed, List.countP_append]
        have : (evs.countP (fun e => decide (e = CrawlEvent.processed u))) = 0 := by
          rw [List.countP_eq_zero]
          intro e he hdec
          have he' : e = CrawlEvent.processed u := of_decide_eq_true hdec
          exact (hproc u (he' ▸ he)) hu
        rw [this, countProcessed]
        omega

/-- A URL denied by the robots policy is never fetched by the loop: its
fetch count is frozen however long the run continues. -/
theorem crawlLoop_denied_never_fetched (w : World) (args : ScraperArgs) :
    ∀ (fuel : Nat) (st : CrawlState) (u : String), w.robotsAllowed u = false →
      countFetched u (crawlLoop w args fuel st).events = countFetched u st.events := by
  intro fuel
  induction fuel with
  | zero => intro st u _; rfl
  | succ m ih =>
    intro st u hdenied
    rcases hstep : scraperStep w args st with _ | st'
    · simp [crawlLoop, hstep]
    · obtain ⟨_, evs, hevs, hfetch, _, _⟩ := scraperStep_analysis w args st st' hstep
      rw [crawlLoop_succ_of_step w args m st st' hstep, ih st' u hdenied, hevs,
        countFetched, List.countP_append]
      have : (evs.countP (fun e => decide (e = CrawlEvent.fetched u))) = 0 := by
        rw [List.countP_eq_zero]
        intro e he hdec
        have he' : e = CrawlEvent.fetched u := of_decide_eq_true hdec
        have := (hfetch u (he' ▸ he)).2
        rw [hdenied] at this
        exact Bool.false_ne_true this
      rw [this, countFetched]
      omega

/-- Every literal root form passes the homepage test of run_scraper. -/
theorem root_forms_pass_homepage_test :
    ∀ s ∈ ROOT_FORMS, rstripSlash s ∈ HOMEPAGE_BASES := by
  decide

/-- Initialization equation in the category-first branch with a
successful homepage fetch. -/
theorem initState_root (w : World) (args : ScraperArgs) (html : Html)
    (hroot : rstripSlash args.start ∈ HOMEPAGE_BASES)
    (hf : w.fetch args.start = some html) :
    initState w args =
      ⟨ROOT_FORMS, extract_all_category_urls html args.start,
       (match w.existingOutput with
        | some lines => seed_saved_keys lines
        | none => []),
       w.existingOutput.getD [], 0, [CrawlEvent.fetched args.start]⟩ := by
  rw [initState, if_pos hroot, hf]

/-- The page counter is zero right after initialization. -/
theorem initState_pages (w : World) (args : ScraperArgs) :
    (initState w args).pagesCrawled = 0 := by
  rw [initState]
  by_cases hroot : rstripSlash args.start ∈ HOMEPAGE_BASES
  · rw [if_pos hroot]
  · rw [if_neg hroot]

/-- Initialization fetches nothing but possibly the start URL. -/
theorem countFetched_initState (w : World) (args : ScraperArgs) (u : String)
    (hne : u ≠ args.start) :
    countFetched u (initState w args).events = 0 := by
  rw [initState]
  by_cases hroot : rstripSlash args.start ∈ HOMEPAGE_BASES
  · rw [if_pos hroot]
    rcases w.fetch args.start <;>
      simp [countFetched, List.countP_cons, hne, Ne.symm hne]
  · rw [if_neg hroot]
    simp [countFetched]

/-- Initialization performs no robots check. -/
theorem initState_no_robots_events (w : World) (args : ScraperArgs) (u : String)
    (b : Bool) : CrawlEvent.robotsChecked u b ∉ (initState w args).events := by
  rw [initState]
  by_cases hroot : rstripSlash args.start ∈ HOMEPAGE_BASES
  · rw [if_pos hroot]
    rcases w.fetch args.start <;> simp
  · rw [if_neg hroot]
    simp




/-- C1: for every crawl run, a page whose fetch fails is contained: the
orchestrator marks it visited, logs the failure events and continues the
loop with the remaining frontier; and a failing record inside a page's
extraction is dropped by parse_book_page while the rest of the page's
records are still produced, so extraction failures never abort the page
or the run. -/
theorem run_scraper_contains_per_page_failures :
    (∀ (w : World) (args : ScraperArgs) (st : CrawlState) (u : String)
       (rest : List String) (fuel : Nat),
      st.urlQueue = u :: rest → st.pagesCrawled < args.max_pages →
      u ∉ st.crawledUrls → w.robotsAllowed u = true → w.fetch u = none →
      crawlLoop w args (fuel + 1) st = crawlLoop w args fuel { st with
        urlQueue := rest,
        crawledUrls := addKey u st.crawledUrls,
        events := st.events ++
          [CrawlEvent.robotsChecked u true, CrawlEvent.fetched u,
           CrawlEvent.fetchFailed u] }) ∧
    (∀ (bc : Option String) (pods1 pods2 : List ProductPod) (bad : ProductPod)
       (nx : Option (Option String)) (sb : List (Option String)) (url : String),
      parse_product (extract_category_from_page ⟨bc, pods1 ++ bad :: pods2, nx, sb⟩)
          url bad = none →
      parse_book_page ⟨bc, pods1 ++ bad :: pods2, nx, sb⟩ url =
        parse_book_page ⟨bc, pods1 ++ pods2, nx, sb⟩ url) := by
  constructor
  · intro w args st u rest fuel hq hb hu hr hf
    exact crawlLoop_succ_of_step w args fuel st _
      (scraperStep_fetchFail w args st u rest hq hb hu hr hf)
  · intro bc pods1 pods2 bad nx sb url hbad
    simp only [parse_book_page, extract_category_from_page] at hbad ⊢
    rw [List.filterMap_append, List.filterMap_append, List.filterMap_cons, hbad]

/-- Witness for C1 at a concrete world, state and page. -/
theorem run_scraper_contains_per_page_failures_witness :
    crawlLoop worldToV argsBudget2 1 stateFetchFail =
      crawlLoop worldToV argsBudget2 0 { stateFetchFail with
        urlQueue := [],
        crawledUrls := addKey "http://t/x" stateFetchFail.crawledUrls,
        events := stateFetchFail.events ++
          [CrawlEvent.robotsChecked "http://t/x" true,
           CrawlEvent.fetched "http://t/x",
           CrawlEvent.fetchFailed "http://t/x"] } ∧
    parse_book_page ⟨none, [goodPod] ++ badPod :: [], none, []⟩ "http://t/p" =
      parse_book_page ⟨none, [goodPod] ++ [], none, []⟩ "http://t/p" := by
  constructor
  · exact run_scraper_contains_per_page_failures.1 worldToV argsBudget2
      stateFetchFail "http://t/x" [] 0 (by decide) (by decide) (by decide)
      (by decide) (by decide)
  · exact run_scraper_contains_per_page_failures.2 none [goodPod] [] badPod
      none [] "http://t/p" (by decide)


/-- C2: records with identical canonical URL keys are persisted at most
once across any sequence of persistence calls from a consistent start
(the store never holds two lines with one key); seeding from a store of N
distinct keys yields an index of size N; and persisting those same N
records again leaves the index and the store unchanged with zero newly
written lines. -/
theorem dedup_store_at_most_once :
    (∀ (batches : List (List BookItem)) (keys : List String) (store : List BookItem),
      ((store.map BookItem.url).Nodup) → (∀ it ∈ store, it.url ∈ keys) →
      (((persistRuns batches keys store).2.map BookItem.url).Nodup)) ∧
    (∀ store : List BookItem, ((store.map BookItem.url).Nodup) →
      (seed_saved_keys store).length = store.length) ∧
    (∀ store : List BookItem,
      save_items_to_jsonl store (seed_saved_keys store) store =
        (seed_saved_keys store, store, 0)) := by
  refine ⟨?_, ?_, ?_⟩
  · intro batches keys store hnd hsub
    exact (persistRuns_nodup batches keys store hnd hsub).1
  · intro store hnd
    exact seed_saved_keys_length store hnd
  · intro store
    exact save_items_go_nop store (seed_saved_keys store, store, 0)
      (fun it hit => mem_seed_saved_keys store it hit)

/-- Witness for C2 on a concrete two-record store. -/
theorem dedup_store_at_most_once_witness :
    (((persistRuns [storeTwo, storeTwo] (seed_saved_keys storeTwo) storeTwo).2.map
        BookItem.url).Nodup) ∧
    (seed_saved_keys storeTwo).length = storeTwo.length ∧
    save_items_to_jsonl storeTwo (seed_saved_keys storeTwo) storeTwo =
      (seed_saved_keys storeTwo, storeTwo, 0) := by
  refine ⟨?_, ?_, ?_⟩
  · exact dedup_store_at_most_once.1 [storeTwo, storeTwo] (seed_saved_keys storeTwo)
      storeTwo (by decide) (fun it hit => mem_seed_saved_keys storeTwo it hit)
  · exact dedup_store_at_most_once.2.1 storeTwo (by decide)
  · exact dedup_store_at_most_once.2.2 storeTwo

/-- C3, counterexample: in the concrete run where robots denies D and D is
re-discovered through a pagination link, the final visited set does not
contain D (so the denied URL is not marked visited, contrary to the
claim), and D passes through the frontier dispatch twice (so it does
recur), while still never being fetched. -/
theorem robots_denied_not_marked_visited_cex :
    "http://t/d" ∉ (run_scraper worldDenyD argsDenyD 10).crawledUrls ∧
    countRobotsChecked "http://t/d" (run_scraper worldDenyD argsDenyD 10).events = 2 ∧
    countFetched "http://t/d" (run_scraper worldDenyD argsDenyD 10).events = 0 := by
  decide

/-- C3, amended: a robots-denied URL is never fetched, by the loop or by
the whole run when it is not the start URL; but on denial the URL is
dropped without being marked visited, so a re-discovered denied URL
re-enters the frontier and is dispatched to the robots check again rather
than being filtered by the visited set. -/
theorem robots_denied_never_fetched :
    (∀ (w : World) (args : ScraperArgs) (fuel : Nat) (st : CrawlState) (u : String),
      w.robotsAllowed u = false →
      countFetched u (crawlLoop w args fuel st).events = countFetched u st.events) ∧
    (∀ (w : World) (args : ScraperArgs) (st : CrawlState) (u : String)
       (rest : List String),
      st.urlQueue = u :: rest → st.pagesCrawled < args.max_pages →
      u ∉ st.crawledUrls → w.robotsAllowed u = false →
      scraperStep w args st = some { st with
        urlQueue := rest,
        events := st.events ++ [CrawlEvent.robotsChecked u false] }) ∧
    (∀ (w : World) (args : ScraperArgs) (fuel : Nat) (u : String),
      w.robotsAllowed u = false → u ≠ args.start →
      countFetched u (run_scraper w args fuel).events = 0) := by
  refine ⟨?_, ?_, ?_⟩
  · intro w args fuel st u hdenied
    exact crawlLoop_denied_never_fetched w args fuel st u hdenied
  · intro w args st u rest hq hb hu hdenied
    exact scraperStep_denied w args st u rest hq hb hu hdenied
  · intro w args fuel u hdenied hne
    rw [run_scraper, crawlLoop_denied_never_fetched w args fuel _ u hdenied]
    exact countFetched_initState w args u hne

/-- Witness for C3's amended theorem on the concrete denial scenario. -/
theorem robots_denied_never_fetched_witness :
    countFetched "http://t/d" (run_scraper worldDenyD argsDenyD 10).events = 0 := by
  exact robots_denied_never_fetched.2.2 worldDenyD argsDenyD 10 "http://t/d"
    (by decide) (by decide)

/-- C10: the initialization fetch is issued without consulting the
robots policy (two worlds differing only in their robots oracle produce
the same initial state, and no robots event is logged during
initialization), it is not counted toward the page budget (the counter is
still zero after initialization), and in the main loop robots checks are
applied exactly to URLs dequeued at the head of the frontier. -/
theorem init_fetch_skips_robots_and_budget :
    (∀ (f : String → Option Html) (r1 r2 : String → Bool)
       (eo : Option (List BookItem)) (args : ScraperArgs),
      initState ⟨f, r1, eo⟩ args = initState ⟨f, r2, eo⟩ args) ∧
    (∀ (w : World) (args : ScraperArgs) (u : String) (b : Bool),
      CrawlEvent.robotsChecked u b ∉ (initState w args).events) ∧
    (∀ (w : World) (args : ScraperArgs), (initState w args).pagesCrawled = 0) ∧
    (∀ (w : World) (args : ScraperArgs) (st st' : CrawlState) (u : String) (b : Bool),
      scraperStep w args st = some st' → CrawlEvent.robotsChecked u b ∈ st'.events →
      CrawlEvent.robotsChecked u b ∈ st.events ∨ st.urlQueue.head? = some u) := by
  refine ⟨?_, ?_, ?_, ?_⟩
  · intro f r1 r2 eo args
    rfl
  · intro w args u b
    exact initState_no_robots_events w args u b
  · intro w args
    exact initState_pages w args
  · intro w args st st' u b hstep hmem
    obtain ⟨-, evs, hevs, -, -, hrc⟩ := scraperStep_analysis w args st st' hstep
    rw [hevs] at hmem
    rcases List.mem_append.mp hmem with hold | hnew
    · exact Or.inl hold
    · exact Or.inr (hrc u b hnew)

/-- Witness for C10 on the concrete robots-denial scenario. -/
theorem init_fetch_skips_robots_and_budget_witness :
    initState ⟨worldDenyD.fetch, fun _ => true, none⟩ argsDenyD =
      initState ⟨worldDenyD.fetch, fun _ => false, none⟩ argsDenyD ∧
    (initState worldDenyD argsDenyD).pagesCrawled = 0 := by
  constructor
  · exact init_fetch_skips_robots_and_budget.1 worldDenyD.fetch (fun _ => true)
      (fun _ => false) none argsDenyD
  · exact init_fetch_skips_robots_and_budget.2.2.1 worldDenyD argsDenyD




/-- C6: when the start URL is the site root and its fetch succeeds, the
frontier after initialization is exactly the category URLs extracted from
the root page (for a page with three category links, exactly those three
resolved URLs), the root forms are marked visited, exactly one fetch (of
the root) has happened, and over any continuation of the run the root is
fetched exactly once in total and never processed as a listing page. -/
theorem root_init_frontier (w : World) (args : ScraperArgs) (html : Html)
    (hstart : args.start ∈ ROOT_FORMS) (hf : w.fetch args.start = some html) :
    (initState w args).urlQueue = extract_all_category_urls html args.start ∧
    (∀ l1 l2 l3 : String, html.sidebarLinks = [some l1, some l2, some l3] →
      l1 ≠ "" → l2 ≠ "" → l3 ≠ "" →
      (initState w args).urlQueue =
        [urljoin args.start l1, urljoin args.start l2, urljoin args.start l3]) ∧
    (∀ r ∈ ROOT_FORMS, r ∈ (initState w args).crawledUrls) ∧
    (initState w args).events = [CrawlEvent.fetched args.start] ∧
    (∀ fuel : Nat,
      countFetched args.start (run_scraper w args fuel).events = 1 ∧
      countProcessed args.start (run_scraper w args fuel).events = 0) := by
  have hroot : rstripSlash args.start ∈ HOMEPAGE_BASES :=
    root_forms_pass_homepage_test args.start hstart
  have hinit := initState_root w args html hroot hf
  refine ⟨by rw [hinit], ?_, ?_, by rw [hinit], ?_⟩
  · intro l1 l2 l3 hsb hl1 hl2 hl3
    rw [hinit]
    simp [extract_all_category_urls, hsb, hl1, hl2, hl3]
  · intro r hr
    rw [hinit]
    exact hr
  · intro fuel
    have hcount := crawlLoop_counts_of_crawled w args fuel (initState w args)
      args.start (by rw [hinit]; exact hstart)
    rw [run_scraper]
    rw [hcount.1, hcount.2, hinit]
    constructor
    · simp [countFetched]
    · simp [countProcessed]

/-- Witness for C6 on the concrete category-first scenario. -/
theorem root_init_frontier_witness :
    (initState worldRoot argsRoot).urlQueue =
      [urljoin "http://books.toscrape.com/" "http://t/c1",
       urljoin "http://books.toscrape.com/" "http://t/c2",
       urljoin "http://books.toscrape.com/" "http://t/c3"] ∧
    countFetched "http://books.toscrape.com/" (run_scraper worldRoot argsRoot 10).events = 1 := by
  have h := root_init_frontier worldRoot argsRoot homepage3 (by decide) (by decide)
  exact ⟨h.2.1 "http://t/c1" "http://t/c2" "http://t/c3" (by decide) (by decide)
    (by decide) (by decide), (h.2.2.2.2 10).1⟩

/-- C7: with page budget two and the frontier holding A, B and C, each
page yielding no next link, the run processes exactly A and B, leaves C in
the frontier and unvisited, and reports the page-budget reason; the same
frontier under an ample budget drains fully and reports the distinct
frontier-exhausted reason. -/
theorem page_budget_termination :
    (crawlLoop worldBudget argsBudget2 10 frontierABC).pagesCrawled = 2 ∧
    "http://t/a" ∈ (crawlLoop worldBudget argsBudget2 10 frontierABC).crawledUrls ∧
    "http://t/b" ∈ (crawlLoop worldBudget argsBudget2 10 frontierABC).crawledUrls ∧
    "http://t/c" ∉ (crawlLoop worldBudget argsBudget2 10 frontierABC).crawledUrls ∧
    (crawlLoop worldBudget argsBudget2 10 frontierABC).urlQueue = ["http://t/c"] ∧
    reportReason argsBudget2 (crawlLoop worldBudget argsBudget2 10 frontierABC) =
      some StopReason.pageBudgetReached ∧
    (crawlLoop worldBudget argsBudget10 10 frontierABC).pagesCrawled = 3 ∧
    reportReason argsBudget10 (crawlLoop worldBudget argsBudget10 10 frontierABC) =
      some StopReason.exhaustedFrontier := by
  decide


/-- C8, counterexample: V is already visited, yet processing page A whose
next link is V enqueues V again — the claim that a visited next-page URL
is never enqueued fails on this input. -/
theorem visited_next_enqueued_cex :
    "http://t/v" ∈ stateVisitedV.crawledUrls ∧
    (scraperStep worldToV argsBudget2 stateVisitedV).map CrawlState.urlQueue =
      some ["http://t/v"] := by
  decide

/-- C8, amended: after a successful page, an existing next-page URL is
appended to the back of the frontier unconditionally, with no visited
check; already-visited URLs are instead filtered at dequeue time, being
dropped with a skip event and never fetched. -/
theorem next_page_enqueued_unconditionally :
    (∀ (w : World) (args : ScraperArgs) (st : CrawlState) (u : String)
       (rest : List String) (html : Html) (nxt : String),
      st.urlQueue = u :: rest → st.pagesCrawled < args.max_pages →
      u ∉ st.crawledUrls → w.robotsAllowed u = true → w.fetch u = some html →
      get_next_page_url html u = some nxt →
      ∃ st', scraperStep w args st = some st' ∧ st'.urlQueue = rest ++ [nxt]) ∧
    (∀ (w : World) (args : ScraperArgs) (st : CrawlState) (u : String)
       (rest : List String),
      st.urlQueue = u :: rest → st.pagesCrawled < args.max_pages →
      u ∈ st.crawledUrls →
      scraperStep w args st = some { st with
        urlQueue := rest,
        events := st.events ++ [CrawlEvent.skippedVisited u] }) := by
  constructor
  · intro w args st u rest html nxt hq hb hu hr hf hnxt
    refine ⟨_, scraperStep_success w args st u rest html hq hb hu hr hf, ?_⟩
    simp [hnxt]
  · intro w args st u rest hq hb hu
    exact scraperStep_visited w args st u rest hq hb hu

/-- Witness for C8's amended theorem on the concrete scenarios. -/
theorem next_page_enqueued_unconditionally_witness :
    (∃ st', scraperStep worldToV argsBudget2 stateVisitedV = some st' ∧
      st'.urlQueue = [] ++ ["http://t/v"]) ∧
    scraperStep worldToV argsBudget2 stateSkipV = some { stateSkipV with
      urlQueue := [],
      events := stateSkipV.events ++ [CrawlEvent.skippedVisited "http://t/v"] } := by
  constructor
  · exact next_page_enqueued_unconditionally.1 worldToV argsBudget2 stateVisitedV
      "http://t/a" [] pageToV "http://t/v" (by decide) (by decide) (by decide)
      (by decide) (by decide) (by decide)
  · exact next_page_enqueued_unconditionally.2 worldToV argsBudget2 stateSkipV
      "http://t/v" [] (by decide) (by decide) (by decide)

/-- C9, counterexample: on a cache miss whose robots fetch fails, the
checker caches nothing (the cache stays empty, so the claim that the
result is cached regardless of fetch success fails on this input), while
the allow verdict is still returned fail-open. -/
theorem robots_failure_not_cached_cex :
    (get_rules robotsFetchFail checkerEmpty "http://t/page").2.parsers = [] ∧
    (is_url_allowed robotsFetchFail checkerEmpty "http://t/page").1 = true := by
  decide

/-- C9, amended: on a cache miss the checker fetches the robots document
of the scheme-and-host base; a successfully parsed document is cached
keyed by that base and used, while a failed retrieval caches nothing (a
later call for the same base will re-fetch) and the verdict falls open to
allow without raising; a cache hit is served from the cache unchanged. -/
theorem robots_cache_on_success_fail_open :
    (∀ (fo : String → Option RobotsRuleset) (c : RobotsChecker) (url : String)
       (rp : RobotsRuleset),
      c.parsers.lookup (get_base_url url) = some rp →
      get_rules fo c url = (some rp, c)) ∧
    (∀ (fo : String → Option RobotsRuleset) (c : RobotsChecker) (url : String)
       (rp : RobotsRuleset),
      c.parsers.lookup (get_base_url url) = none →
      fo (get_base_url url ++ "/robots.txt") = some rp →
      get_rules fo c url =
        (some rp, ⟨c.user_agent, c.parsers ++ [(get_base_url url, rp)]⟩)) ∧
    (∀ (fo : String → Option RobotsRuleset) (c : RobotsChecker) (url : String),
      c.parsers.lookup (get_base_url url) = none →
      fo (get_base_url url ++ "/robots.txt") = none →
      get_rules fo c url = (none, c) ∧
      (is_url_allowed fo c url).1 = true) := by
  refine ⟨?_, ?_, ?_⟩
  · intro fo c url rp hhit
    rw [get_rules, hhit]
  · intro fo c url rp hmiss hfo
    rw [get_rules, hmiss, hfo]
  · intro fo c url hmiss hfo
    have hg : get_rules fo c url = (none, c) := by
      rw [get_rules, hmiss, hfo]
    exact ⟨hg, by rw [is_url_allowed, hg]⟩

/-- Witness for C9's amended theorem at the concrete empty-cache checker. -/
theorem robots_cache_on_success_fail_open_witness :
    get_rules robotsFetchFail checkerEmpty "http://t/page" = (none, checkerEmpty) ∧
    (is_url_allowed robotsFetchFail checkerEmpty "http://t/page").1 = true := by
  exact robots_cache_on_success_fail_open.2.2 robotsFetchFail checkerEmpty
    "http://t/page" (by decide) (by decide)

/-- C4, counterexample: a 501 response (a 5xx status) is not retried: the
fetch aborts permanently after exactly one attempt even though the next
attempt would have returned 200, contradicting the claim that any 5xx
status is transient and continues the retry loop. -/
theorem fetch_5xx_not_all_transient_cex :
    fetch_page resp501 1000 0 = ⟨none, 1, [1]⟩ ∧
    resp501 2 = HttpResp.status 200 "ok" := by
  constructor
  · norm_num [fetch_page, fetch_page_go, MAX_RETRIES, resp501, wait_time, qmax,
      transient_codes]
  · decide

/-- C4, amended: a 200 response succeeds with the body after one attempt;
403 and 404 abort permanently after exactly one attempt; 429, 500, 502,
503 and 504 (not every 5xx) are transient, the loop continuing with the
second attempt, as do network errors; every other status, including the
remaining 5xx codes, aborts permanently after one attempt. -/
theorem fetch_status_classification :
    (∀ (resp : Nat → HttpResp) (d j : ℚ) (body : String),
      resp 1 = HttpResp.status 200 body →
      fetch_page resp d j = ⟨some body, 1, [wait_time (d / 1000) j 1]⟩) ∧
    (∀ (resp : Nat → HttpResp) (d j : ℚ) (code : Nat) (body : String),
      (code = 403 ∨ code = 404) → resp 1 = HttpResp.status code body →
      fetch_page resp d j = ⟨none, 1, [wait_time (d / 1000) j 1]⟩) ∧
    (∀ (resp : Nat → HttpResp) (d j : ℚ) (code : Nat) (body : String),
      code ∈ transient_codes → resp 1 = HttpResp.status code body →
      fetch_page resp d j =
        fetch_page_go resp (d / 1000) j 2 2 [wait_time (d / 1000) j 1] ∧
      2 ≤ (fetch_page resp d j).attempts) ∧
    (∀ (resp : Nat → HttpResp) (d j : ℚ),
      resp 1 = HttpResp.netError →
      fetch_page resp d j =
        fetch_page_go resp (d / 1000) j 2 2 [wait_time (d / 1000) j 1] ∧
      2 ≤ (fetch_page resp d j).attempts) ∧
    (∀ (resp : Nat → HttpResp) (d j : ℚ) (code : Nat) (body : String),
      code ≠ 200 → code ∉ [403, 404] → code ∉ transient_codes →
      resp 1 = HttpResp.status code body →
      fetch_page resp d j = ⟨none, 1, [wait_time (d / 1000) j 1]⟩) := by
  have hatt2 : ∀ (resp : Nat → HttpResp) (d j : ℚ),
      fetch_page resp d j =
        fetch_page_go resp (d / 1000) j 2 2 [wait_time (d / 1000) j 1] →
      2 ≤ (fetch_page resp d j).attempts := by
    intro resp d j heq
    obtain ⟨k, _, hk1, _, hatt⟩ :=
      fetch_page_go_shape resp (d / 1000) j 2 2 [wait_time (d / 1000) j 1]
    rw [heq, hatt]
    have := hk1 (by omega)
    omega
  refine ⟨?_, ?_, ?_, ?_, ?_⟩
  · intro resp d j body hr
    simp [fetch_page, fetch_page_go, MAX_RETRIES, hr]
  · intro resp d j code body hc hr
    rcases hc with rfl | rfl <;>
      simp [fetch_page, fetch_page_go, MAX_RETRIES, hr, transient_codes]
  · intro resp d j code body hc hr
    have hc' : code = 429 ∨ code = 500 ∨ code = 502 ∨ code = 503 ∨ code = 504 := by
      simpa [transient_codes] using hc
    have heq : fetch_page resp d j =
        fetch_page_go resp (d / 1000) j 2 2 [wait_time (d / 1000) j 1] := by
      rcases hc' with rfl | rfl | rfl | rfl | rfl <;>
        simp [fetch_page, fetch_page_go, MAX_RETRIES, hr, transient_codes]
    exact ⟨heq, hatt2 resp d j heq⟩
  · intro resp d j hr
    have heq : fetch_page resp d j =
        fetch_page_go resp (d / 1000) j 2 2 [wait_time (d / 1000) j 1] := by
      simp [fetch_page, fetch_page_go, MAX_RETRIES, hr]
    exact ⟨heq, hatt2 resp d j heq⟩
  · intro resp d j code body h200 hperm htrans hr
    simp [fetch_page, fetch_page_go, MAX_RETRIES, hr, h200, hperm, htrans]

/-- C5: every fetch makes at most three attempts; the first wait is the
jittered base delay floored at a tenth of a second (hence never below the
floor), each later wait is the pure exponential backoff of its attempt
with no jitter, and with 429 forced on the first two attempts and 200 on
the third the fetch succeeds after exactly three requests with the
jitter-then-backoff-then-backoff waits. -/
theorem fetch_retry_schedule :
    (∀ (resp : Nat → HttpResp) (d j : ℚ),
      (fetch_page resp d j).attempts ≤ 3 ∧
      (fetch_page resp d j).waits.length = (fetch_page resp d j).attempts ∧
      (fetch_page resp d j).waits[0]? = some (qmax (1/10) (d / 1000 + j)) ∧
      (1/10 : ℚ) ≤ qmax (1/10) (d / 1000 + j) ∧
      (∀ i : Nat, 1 ≤ i → i < (fetch_page resp d j).waits.length →
        (fetch_page resp d j).waits[i]? = some ((d / 1000) * 2 ^ i))) ∧
    fetch_page resp429 1000 0 = ⟨some "ok", 3, [1, 2, 4]⟩ := by
  constructor
  · intro resp d j
    obtain ⟨k, hk1, hk3, hwaits, hatt⟩ := fetch_page_shape resp d j
    refine ⟨by omega, ?_, ?_, ?_, ?_⟩
    · rw [hwaits, hatt, List.length_map, List.length_range']
    · rw [hwaits]
      obtain ⟨k', rfl⟩ : ∃ k', k = k' + 1 := ⟨k - 1, by omega⟩
      simp [List.range', wait_time]
    · rw [qmax]
      split
      · assumption
      · exact le_refl (1/10 : ℚ)
    · intro i hi1 hilen
      rw [hwaits] at hilen ⊢
      rw [List.length_map, List.length_range'] at hilen
      rw [List.getElem?_map, List.getElem?_range' 1 1 hilen]
      simp only [Option.map_some']
      have harg : 1 + 1 * i = i + 1 := by omega
      rw [harg]
      simp only [wait_time]
      rw [if_neg (by omega)]
      have hexp : i + 1 - 1 = i := by omega
      rw [hexp]
  · norm_num [fetch_page, fetch_page_go, MAX_RETRIES, resp429, wait_time, qmax,
      transient_codes]


/-- Witness for C5 on the forced-429 scenario. -/
theorem fetch_retry_schedule_witness :
    (fetch_page resp429 1000 0).attempts ≤ 3 ∧
    (fetch_page resp429 1000 0).waits[1]? = some ((1000 / 1000 : ℚ) * 2 ^ 1) := by
  constructor
  · exact ((fetch_retry_schedule.1 resp429 1000 0).1)
  · exact (fetch_retry_schedule.1 resp429 1000 0).2.2.2.2 1 (by omega)
      (by rw [fetch_retry_schedule.2]; decide)

/-- Witness for C4's amended classification at forced 404 and forced 429
responses. -/
theorem fetch_status_classification_witness :
    fetch_page resp404 1000 0 = ⟨none, 1, [wait_time (1000 / 1000) 0 1]⟩ ∧
    2 ≤ (fetch_page resp429 1000 0).attempts := by
  constructor
  · exact fetch_status_classification.2.1 resp404 1000 0 404 "x" (Or.inr rfl)
      (by decide)
  · exact (fetch_status_classification.2.2.1 resp429 1000 0 429 "" (by decide)
      (by decide)).2
